import Mathlib

/-!
# Verification of the clustershell node agent (`clustershell_client.c`)

A shallow embedding of the byte-level behaviour of the node agent in
`src/assignment-1/problem-2/clustershell_client.c`.  Bytes are modelled as
`Nat` values (ASCII codes): `c` = 99, `o` = 111, `i` = 105, `d` = 100,
space = 32, `0` = 48, newline = 10.  C strings are byte lists read up to the
first 0 byte; the helper `cstr` gives that view.

The embedding covers:
* the wire codec `get_header_str` (lines 154-178) together with the decoding
  pattern `hdr[0]` / `atoi(hdr+1)` used by both handlers;
* the execution engine `execute_on_current_node` (lines 102-149), with the
  file-system and subprocess environment abstracted into `EngineEnv`;
* one iteration of the shell handler loop `shell_handler` (lines 185-262)
  and of the request handler loop `request_handler` (lines 292-378), with
  `read`/`write` results supplied by oracles (`ReadRes`, write return value)
  and uninitialized buffer memory supplied as explicit `junk` lists.
-/

namespace ClusterShell

/-- C-string view of a byte buffer: the bytes before the first NUL
(`strlen`/`strcpy`/`strcmp` semantics). -/
def cstr (l : List Nat) : List Nat := l.takeWhile (fun b => b ≠ 0)

/-- The digit-counting loop of `get_header_str` (lines 155-160):
`while (s != 0) { s = s/10; num_length++; }`. -/
def digitCount : Nat → Nat
  | 0 => 0
  | n + 1 => digitCount ((n + 1) / 10) + 1
decreasing_by exact Nat.div_lt_self (Nat.succ_pos n) (by norm_num)

/-- `num_length` after the loop and the `if (size == 0) num_length = 1;`
fixup (line 161). -/
def numLength (size : Nat) : Nat := if size = 0 then 1 else digitCount size

/-- The decimal digits printed by `sprintf("%d", size)` (line 176),
most-significant first, as ASCII bytes. -/
def decDigits (n : Nat) : List Nat :=
  if h : n < 10 then [48 + n] else decDigits (n / 10) ++ [48 + n % 10]
decreasing_by
  exact Nat.div_lt_self (by omega) (by norm_num)

/-- `get_header_str(co, size)` (lines 154-178): `none` models the fatal
path (print diagnostic, signal the sibling process, `exit(1)`) taken when
the length does not fit in `HEADER_SIZE - 1 = 5` digits; otherwise the
6-byte header: tag byte, `5 - num_length` ASCII zeroes, then the decimal
digits of `size`. -/
def get_header_str (tag : Nat) (size : Nat) : Option (List Nat) :=
  if numLength size > 5 then none
  else some (tag :: (List.replicate (5 - numLength size) 48 ++ decDigits size))

/-- A full encoded frame: header followed by the payload, `none` when the
encoder aborts the process. -/
def encodeFrame (tag : Nat) (payload : List Nat) : Option (List Nat) :=
  (get_header_str tag payload.length).map (fun h => h ++ payload)

/-- `isdigit` on a byte. -/
def isDigitB (b : Nat) : Bool := decide (48 ≤ b) && decide (b ≤ 57)

/-- `isspace` on a byte (the whitespace class skipped by `atoi`). -/
def isSpaceB (b : Nat) : Bool :=
  b == 32 || b == 9 || b == 10 || b == 11 || b == 12 || b == 13

/-- The digit-accumulation loop of `atoi`. -/
def atoiDigits : List Nat → Nat → Nat
  | [], acc => acc
  | b :: bs, acc => if isDigitB b then atoiDigits bs (10 * acc + (b - 48)) else acc

/-- C `atoi`: skip leading whitespace, optional sign, then decimal digits.
Used by both handlers to parse the 5 length bytes of a header
(`atoi(hdr + 1)`, lines 241, 320, 337). -/
def atoi (s : List Nat) : Int :=
  match s.dropWhile isSpaceB with
  | [] => 0
  | b :: r =>
    if b = 45 then -(atoiDigits r 0 : Int)
    else if b = 43 then (atoiDigits r 0 : Int)
    else (atoiDigits (b :: r) 0 : Int)

/-- The header-decoding pattern used at lines 239-241 (and 317-320,
335-337): tag is byte 0, length is `atoi` of bytes 1-5. -/
def decodeHeader (h : List Nat) : Nat × Int := (h.headD 0, atoi (h.drop 1))

/-- Environment of the execution engine: `chdirOk p` tells whether
`chdir(p)` succeeds, and `spawn c` is the behaviour of `popen(c, "r")` —
`none` when `popen` fails, otherwise the function from the bytes fed to the
subprocess's standard input to the bytes it writes to standard output. -/
structure EngineEnv where
  chdirOk : List Nat → Bool
  spawn : List Nat → Option (List Nat → List Nat)

/-- Length of one `fgets(tmp_buffer, 200, f)` chunk (line 134) taken from
the remaining stream `s`: up to and including the first newline, but at
most 199 bytes, and at most the rest of the stream. -/
def fgetsChunkLen (s : List Nat) : Nat :=
  match (s.take 199).findIdx? (fun b => b = 10) with
  | some i => i + 1
  | none => min 199 s.length

/-- The subprocess's standard-output stream split into the successive
chunks returned by the `fgets` loop (lines 134-143). -/
def fgetsChunks (s : List Nat) : List (List Nat) :=
  if h : s = [] then []
  else s.take (fgetsChunkLen s) :: fgetsChunks (s.drop (fgetsChunkLen s))
termination_by s.length
decreasing_by
  have h1 : 1 ≤ fgetsChunkLen s := by
    unfold fgetsChunkLen
    cases hf : (s.take 199).findIdx? (fun b => b = 10) with
    | none =>
      simp only []
      have : 1 ≤ s.length := by
        cases s with
        | nil => exact absurd rfl h
        | cons a t => simp
      omega
    | some i => simp
  have h2 : 1 ≤ s.length := by
    cases s with
    | nil => exact absurd rfl h
    | cons a t => simp
  simp only [List.length_drop]
  omega

/-- The accumulation loop of `execute_on_current_node` (lines 132-143):
`output` starts as `NULL` and each chunk's C-string content is appended via
`realloc`/`strcpy`. -/
def joinChunks (chunks : List (List Nat)) : List Nat :=
  chunks.foldl (fun acc c => acc ++ cstr c) []

/-- The value of `output` after the `fgets` loop: still the `NULL` pointer
(`none`) when the loop body never ran, otherwise the accumulated C string. -/
def accumOutput (chunks : List (List Nat)) : Option (List Nat) :=
  match chunks with
  | [] => none
  | _ => some (joinChunks chunks)

/-- Observable result of one call to `execute_on_current_node`:
the returned `char*` (`none` = `NULL`), the working directory afterwards,
whether the fatal path (signal sibling + `exit(1)`) was taken, the bytes
written into the subprocess's standard-input pipe (line 120), and the
command string handed to `popen` (`none` when `popen` was never called). -/
structure EngineOut where
  result : Option (List Nat)
  newCwd : List Nat
  fatal : Bool
  stdinSent : List Nat
  popenArg : Option (List Nat)
deriving DecidableEq

/-- `execute_on_current_node(input, command)` (lines 102-149) run from
working directory `cwd` in environment `env`.

* Lines 106-114: if bytes 0-2 of `command` are `'c','d',' '`, call
  `chdir(command + 3)`; on failure only log; return a freshly allocated
  empty string either way.
* Lines 117-122: write `strlen(input)` bytes of `input` into the pipe that
  becomes the subprocess's standard input and close it — all before the
  subprocess output is read.
* Lines 124-129: `popen(command)`; `NULL` means the fatal path.
* Lines 132-143: accumulate the subprocess's standard output
  `fgets`-chunk by chunk into `output`. -/
def execute_on_current_node (env : EngineEnv) (cwd : List Nat)
    (input command : List Nat) : EngineOut :=
  if command.getD 0 0 = 99 ∧ command.getD 1 0 = 100 ∧ command.getD 2 0 = 32 then
    { result := some []
      newCwd := if env.chdirOk (cstr (command.drop 3)) then cstr (command.drop 3) else cwd
      fatal := false
      stdinSent := []
      popenArg := none }
  else
    let stdinBytes := cstr input
    match env.spawn (cstr command) with
    | none =>
      { result := none, newCwd := cwd, fatal := true
        stdinSent := stdinBytes, popenArg := some (cstr command) }
    | some f =>
      { result := accumOutput (fgetsChunks (f stdinBytes))
        newCwd := cwd, fatal := false
        stdinSent := stdinBytes, popenArg := some (cstr command) }

/-- Result of one `read(fd, buf, n)` call, supplied by the environment:
`err` is a negative return value, `ok bs` a return of `bs.length` bytes
placed at the start of the buffer (`bs = []` is end-of-stream, and
`bs.length < n` is a short read — the code never checks for either). -/
inductive ReadRes where
  | err : ReadRes
  | ok : List Nat → ReadRes

/-- Contents of a freshly `malloc`ed buffer after a `read` returning `r`:
the bytes delivered followed by the pre-existing garbage `junk` (on a
failed read the buffer is untouched garbage). -/
def readBuf (r : ReadRes) (junk : List Nat) : List Nat :=
  match r with
  | .err => junk
  | .ok bs => bs ++ junk

/-- Observable outcome of one iteration of the `shell_handler` loop:
bytes actually written to the server socket, whether `SIGUSR1` was sent to
the sibling process, the `exit` status if the process terminated
(`none` = the loop continues), and the output rendered to the operator. -/
structure ShellOut where
  sent : List Nat
  killsSibling : Bool
  exitCode : Option Nat
  rendered : Option (List Nat)
deriving DecidableEq

/-- One iteration of the `shell_handler` loop (lines 185-262).

* `len`, `buf`: the `getline` return value and buffer contents (the raw
  line, including its trailing newline when one was read).
* `wres`: the return value of the `write` of the command frame.
* `r1`, `junk1`: the header `read` result and the garbage occupying the
  7-byte header buffer beyond the bytes delivered.
* `r2`, `junk2`: likewise for the output-body `read`.

Lines 194-196: a non-positive `getline` result or a lone newline just
re-prompts.  Line 197: the byte at `len-1` is overwritten with NUL, so
the command is `buf.take (len-1)`.  Lines 199-206: `strcmp` with
`"exit"` → signal sibling, `exit(1)`, nothing sent.  Lines 209-223:
frame and write the command; a failed or short write is fatal.  Lines
228-252: read the 6-byte reply header (only a negative return is
checked), require tag `'o'`, then read the declared number of body bytes
(result unchecked) and render them. -/
def shellIterate (len : Int) (buf : List Nat) (wres : Int)
    (r1 : ReadRes) (junk1 : List Nat) (r2 : ReadRes) (junk2 : List Nat) :
    ShellOut :=
  if len ≤ 0 ∨ (len = 1 ∧ buf.headD 0 = 10) then
    { sent := [], killsSibling := false, exitCode := none, rendered := none }
  else
    let cmd := buf.take (len.toNat - 1)
    if cstr cmd = [101, 120, 105, 116] then
      { sent := [], killsSibling := true, exitCode := some 1, rendered := none }
    else
      match get_header_str 99 (len.toNat - 1) with
      | none =>
        { sent := [], killsSibling := true, exitCode := some 1, rendered := none }
      | some hdr =>
        let msg := hdr ++ cstr cmd
        if wres < 0 then
          { sent := [], killsSibling := true, exitCode := some 1, rendered := none }
        else if wres < (msg.length : Int) then
          { sent := msg.take wres.toNat, killsSibling := true, exitCode := some 1
            rendered := none }
        else
          match r1 with
          | .err =>
            { sent := msg, killsSibling := true, exitCode := some 1, rendered := none }
          | .ok bs =>
            let ohdr := (bs ++ junk1).take 6
            if ohdr.headD 0 = 111 then
              let osize := (atoi (ohdr.drop 1)).toNat
              let body := (readBuf r2 junk2).take osize
              { sent := msg, killsSibling := false, exitCode := none
                rendered := some (cstr body) }
            else
              { sent := msg, killsSibling := true, exitCode := some 1, rendered := none }

/-- Observable outcome of servicing one accepted connection in
`request_handler`: bytes written back on the connection, whether `SIGUSR1`
was sent to the parent, the `exit` status if the process terminated, the
`(input, command)` pair handed to `execute_on_current_node` (`none` = the
engine was never invoked), and whether undefined behaviour was reached
(`strlen(NULL)` at line 355 when the engine returned `NULL`). -/
structure ReqOut where
  sent : List Nat
  killsSibling : Bool
  exitCode : Option Nat
  engineCalled : Option (List Nat × List Nat)
  ub : Bool

/-- One accepted-connection iteration of the `request_handler` loop
(lines 292-378), with the engine's returned pointer abstracted as
`engineResult` (`none` = `NULL`).

Lines 296-314: read the 6-byte command header, then the 6-byte input
header; only a negative `read` return is fatal.  Lines 316-332: if the
input header's tag is `'i'`, read `atoi`-of-its-length body bytes as the
input (result unchecked), else fatal.  Lines 333-349: same for the
command header with tag `'c'`.  Line 352: invoke the engine with
`(input, command)`.  Lines 355-372: frame the result as an `'o'` frame
(`get_header_str` may abort) and write it; a failed or short write is
fatal. -/
def requestIterate (r1 : ReadRes) (j1 : List Nat) (r2 : ReadRes) (j2 : List Nat)
    (r3 : ReadRes) (j3 : List Nat) (r4 : ReadRes) (j4 : List Nat)
    (engineResult : Option (List Nat)) (wres : Int) : ReqOut :=
  match r1 with
  | .err =>
    { sent := [], killsSibling := true, exitCode := some 1
      engineCalled := none, ub := false }
  | .ok b1 =>
    let cmdHdr := (b1 ++ j1).take 6
    match r2 with
    | .err =>
      { sent := [], killsSibling := true, exitCode := some 1
        engineCalled := none, ub := false }
    | .ok b2 =>
      let inpHdr := (b2 ++ j2).take 6
      if inpHdr.headD 0 = 105 then
        let inpSize := (atoi (inpHdr.drop 1)).toNat
        let inp := (readBuf r3 j3).take inpSize
        if cmdHdr.headD 0 = 99 then
          let cmdSize := (atoi (cmdHdr.drop 1)).toNat
          let cmd := (readBuf r4 j4).take cmdSize
          match engineResult with
          | none =>
            { sent := [], killsSibling := false, exitCode := none
              engineCalled := some (inp, cmd), ub := true }
          | some out =>
            match get_header_str 111 (cstr out).length with
            | none =>
              { sent := [], killsSibling := true, exitCode := some 1
                engineCalled := some (inp, cmd), ub := false }
            | some hdr =>
              let msg := hdr ++ cstr out
              if wres < 0 then
                { sent := [], killsSibling := true, exitCode := some 1
                  engineCalled := some (inp, cmd), ub := false }
              else if wres < (msg.length : Int) then
                { sent := msg.take wres.toNat, killsSibling := true
                  exitCode := some 1, engineCalled := some (inp, cmd), ub := false }
              else
                { sent := msg, killsSibling := false, exitCode := none
                  engineCalled := some (inp, cmd), ub := false }
        else
          { sent := [], killsSibling := true, exitCode := some 1
            engineCalled := none, ub := false }
      else
        { sent := [], killsSibling := true, exitCode := some 1
          engineCalled := none, ub := false }

/-! ## Codec lemmas -/

theorem digitCount_zero : digitCount 0 = 0 := by
  rw [digitCount]

theorem digitCount_succ (n : Nat) : digitCount (n + 1) = digitCount ((n + 1) / 10) + 1 := by
  rw [digitCount]

/-- The digit-counting loop counts at most `k` digits exactly on numbers
below `10 ^ k`. -/
theorem digitCount_le_iff (k : Nat) : ∀ n : Nat, digitCount n ≤ k ↔ n < 10 ^ k := by
  induction k with
  | zero =>
    intro n
    cases n with
    | zero => simp [digitCount_zero]
    | succ m => simp [digitCount_succ]
  | succ k ih =>
    intro n
    cases n with
    | zero => simp [digitCount_zero]
    | succ m =>
      rw [digitCount_succ]
      have h1 : digitCount ((m + 1) / 10) + 1 ≤ k + 1 ↔ digitCount ((m + 1) / 10) ≤ k := by
        omega
      rw [h1, ih ((m + 1) / 10), Nat.div_lt_iff_lt_mul (by norm_num : 0 < 10),
        pow_succ]

theorem numLength_le_five {n : Nat} (h : n ≤ 99999) : numLength n ≤ 5 := by
  unfold numLength
  by_cases h0 : n = 0
  · simp [h0]
  · simp only [h0, if_false]
    rw [digitCount_le_iff]
    norm_num
    omega

theorem numLength_gt_five {n : Nat} (h : 100000 ≤ n) : 5 < numLength n := by
  unfold numLength
  have h0 : n ≠ 0 := by omega
  simp only [h0, if_false]
  by_contra hc
  push_neg at hc
  rw [digitCount_le_iff] at hc
  norm_num at hc
  omega

theorem numLength_pos (n : Nat) : 1 ≤ numLength n := by
  unfold numLength
  by_cases h0 : n = 0
  · simp [h0]
  · simp only [h0, if_false]
    cases n with
    | zero => exact absurd rfl h0
    | succ m => rw [digitCount_succ]; omega

/-- Every byte printed by `sprintf("%d", _)` is an ASCII digit. -/
theorem decDigits_mem_digit : ∀ n : Nat, ∀ b ∈ decDigits n, 48 ≤ b ∧ b ≤ 57 := by
  intro n
  induction n using Nat.strong_induction_on with
  | _ n ih =>
    intro b hb
    by_cases h : n < 10
    · rw [decDigits, dif_pos h] at hb
      simp at hb
      omega
    · rw [decDigits, dif_neg h] at hb
      rw [List.mem_append] at hb
      rcases hb with hb | hb
      · exact ih (n / 10) (Nat.div_lt_self (by omega) (by norm_num)) b hb
      · simp at hb
        have := Nat.mod_lt n (show 0 < 10 by norm_num)
        omega

/-- `sprintf("%d", size)` prints exactly `num_length` digits. -/
theorem decDigits_length : ∀ n : Nat, (decDigits n).length = numLength n := by
  intro n
  induction n using Nat.strong_induction_on with
  | _ n ih =>
    by_cases h : n < 10
    · rw [decDigits, dif_pos h]
      unfold numLength
      by_cases h0 : n = 0
      · simp [h0]
      · simp only [h0, if_false, List.length_cons, List.length_nil]
        cases n with
        | zero => exact absurd rfl h0
        | succ m =>
          rw [digitCount_succ]
          have : (m + 1) / 10 = 0 := by omega
          rw [this, digitCount_zero]
    · rw [decDigits, dif_neg h]
      rw [List.length_append]
      have hdiv : n / 10 < n := Nat.div_lt_self (by omega) (by norm_num)
      rw [ih (n / 10) hdiv]
      unfold numLength
      have h0 : n ≠ 0 := by omega
      have h10 : n / 10 ≠ 0 := by omega
      simp only [h0, h10, if_false, List.length_cons, List.length_nil]
      cases n with
      | zero => exact absurd rfl h0
      | succ m => rw [digitCount_succ]

theorem decDigits_ne_nil (n : Nat) : decDigits n ≠ [] := by
  intro hc
  have h1 := decDigits_length n
  rw [hc] at h1
  simp at h1
  have h2 := numLength_pos n
  omega

/-- Accumulating over digit bytes before a tail. -/
theorem atoiDigits_append (xs : List Nat) (h : ∀ b ∈ xs, isDigitB b = true) :
    ∀ (ys : List Nat) (acc : Nat),
    atoiDigits (xs ++ ys) acc = atoiDigits ys (atoiDigits xs acc) := by
  induction xs with
  | nil => intro ys acc; rfl
  | cons a t ih =>
    intro ys acc
    have ha : isDigitB a = true := h a (by simp)
    simp only [List.cons_append, atoiDigits, ha, if_true]
    exact ih (fun b hb => h b (by simp [hb])) ys _

theorem atoiDigits_decDigits : ∀ n acc : Nat,
    atoiDigits (decDigits n) acc = acc * 10 ^ (decDigits n).length + n := by
  intro n
  induction n using Nat.strong_induction_on with
  | _ n ih =>
    intro acc
    by_cases h : n < 10
    · rw [decDigits, dif_pos h]
      have hd : isDigitB (48 + n) = true := by
        unfold isDigitB
        simp
        omega
      simp only [atoiDigits, hd, if_true]
      simp
      omega
    · rw [decDigits, dif_neg h]
      have hdiv : n / 10 < n := Nat.div_lt_self (by omega) (by norm_num)
      rw [atoiDigits_append _ (fun b hb => by
        have := decDigits_mem_digit (n / 10) b hb
        unfold isDigitB
        simp
        omega)]
      rw [ih (n / 10) hdiv acc]
      have hd : isDigitB (48 + n % 10) = true := by
        unfold isDigitB
        simp
        have := Nat.mod_lt n (show 0 < 10 by norm_num)
        omega
      simp only [atoiDigits, hd, if_true]
      rw [List.length_append]
      simp only [List.length_cons, List.length_nil]
      have hmod : 48 + n % 10 - 48 = n % 10 := by omega
      rw [hmod]
      rw [pow_succ]
      have hdm := Nat.div_add_mod n 10
      ring_nf
      omega

theorem atoiDigits_replicate48 : ∀ k : Nat, atoiDigits (List.replicate k 48) 0 = 0 := by
  intro k
  induction k with
  | zero => rfl
  | succ m ih =>
    rw [List.replicate_succ]
    simp only [atoiDigits]
    norm_num [isDigitB]
    exact ih

/-- `atoi` on a string that starts with an ASCII digit is the plain
digit-accumulation. -/
theorem atoi_of_digit_head {b : Nat} (t : List Nat) (h1 : 48 ≤ b) (h2 : b ≤ 57) :
    atoi (b :: t) = (atoiDigits (b :: t) 0 : Int) := by
  unfold atoi
  have hs : isSpaceB b = false := by
    unfold isSpaceB
    simp
    omega
  rw [List.dropWhile_cons_of_neg (by simp [hs])]
  have h45 : b ≠ 45 := by omega
  have h43 : b ≠ 43 := by omega
  simp [h45, h43]

/-- `atoi` of the 5 length bytes of a well-formed header recovers the
encoded size. -/
theorem atoi_padded (k n : Nat) :
    atoi (List.replicate k 48 ++ decDigits n) = (n : Int) := by
  have hdig : ∀ b ∈ List.replicate k 48 ++ decDigits n, 48 ≤ b ∧ b ≤ 57 := by
    intro b hb
    rw [List.mem_append] at hb
    rcases hb with hb | hb
    · rw [List.eq_of_mem_replicate hb]; omega
    · exact decDigits_mem_digit n b hb
  have hne : List.replicate k 48 ++ decDigits n ≠ [] := by
    simp [decDigits_ne_nil n]
  obtain ⟨b, t, hbt⟩ : ∃ b t, List.replicate k 48 ++ decDigits n = b :: t := by
    cases hx : List.replicate k 48 ++ decDigits n with
    | nil => exact absurd hx hne
    | cons b t => exact ⟨b, t, rfl⟩
  rw [hbt]
  have hb : 48 ≤ b ∧ b ≤ 57 := hdig b (by rw [hbt]; simp)
  rw [atoi_of_digit_head t hb.1 hb.2, ← hbt]
  rw [atoiDigits_append _ (fun b hb => by
    have := List.eq_of_mem_replicate hb
    unfold isDigitB
    simp
    omega)]
  rw [atoiDigits_replicate48, atoiDigits_decDigits]
  simp

/-- The non-aborting case of the encoder, with the exact header produced. -/
theorem get_header_str_eq {n : Nat} (t : Nat) (h : n ≤ 99999) :
    get_header_str t n =
      some (t :: (List.replicate (5 - numLength n) 48 ++ decDigits n)) := by
  unfold get_header_str
  have := numLength_le_five h
  simp only [gt_iff_lt]
  rw [if_neg (by omega)]

/-- A produced header is exactly `HEADER_SIZE = 6` bytes. -/
theorem header_length {n : Nat} (t : Nat) (h : n ≤ 99999) :
    (t :: (List.replicate (5 - numLength n) 48 ++ decDigits n)).length = 6 := by
  simp only [List.length_cons, List.length_append, List.length_replicate,
    decDigits_length]
  have h5 := numLength_le_five h
  have h1 := numLength_pos n
  omega

/-! ## C1: header round-trip -/

/-- C1: for every tag in `{c, o, i}` and every payload of length
`0 ≤ n ≤ 99999`, decoding the 6-byte header produced by encoding the
payload yields back the same tag and the length `n`, and the payload bytes
appended after the header are recovered byte-for-byte by reading exactly
`n` bytes. -/
theorem C1_header_roundtrip (tag : Nat) (payload : List Nat)
    (htag : tag = 99 ∨ tag = 111 ∨ tag = 105)
    (hlen : payload.length ≤ 99999) :
    ∃ frame, encodeFrame tag payload = some frame ∧
      (frame.take 6).length = 6 ∧
      decodeHeader (frame.take 6) = (tag, (payload.length : Int)) ∧
      (frame.drop 6).take payload.length = payload ∧
      frame.drop 6 = payload := by
  set hdr : List Nat :=
    tag :: (List.replicate (5 - numLength payload.length) 48 ++
      decDigits payload.length) with hhdr
  have h6 : hdr.length = 6 := header_length tag hlen
  refine ⟨hdr ++ payload, ?_, ?_, ?_, ?_, ?_⟩
  · unfold encodeFrame
    rw [get_header_str_eq tag hlen]
    rfl
  · rw [← h6, List.take_left, h6]
  · rw [← h6, List.take_left]
    unfold decodeHeader
    rw [hhdr]
    simp only [List.headD_cons, List.drop_one, List.tail_cons]
    rw [atoi_padded]
  · rw [← h6, List.drop_left]
    exact List.take_length payload
  · rw [← h6, List.drop_left]

/-- C1 witness: round-trip of the command frame for payload `hi`
(tag `c`, length 2). -/
theorem C1_header_roundtrip_witness :
    ∃ frame, encodeFrame 99 [104, 105] = some frame ∧
      (frame.take 6).length = 6 ∧
      decodeHeader (frame.take 6) = (99, ((2 : Nat) : Int)) ∧
      (frame.drop 6).take 2 = [104, 105] ∧
      frame.drop 6 = [104, 105] :=
  C1_header_roundtrip 99 [104, 105] (Or.inl rfl) (by norm_num)

/-! ## Engine and handler lemmas -/

theorem cstr_eq_self {l : List Nat} (h : (0 : Nat) ∉ l) : cstr l = l := by
  induction l with
  | nil => rfl
  | cons a t ih =>
    have ha : a ≠ 0 := fun hc => h (by simp [hc])
    have ht : (0 : Nat) ∉ t := fun hc => h (by simp [hc])
    simp [cstr, List.takeWhile_cons, ha]
    simpa [cstr] using ih ht

/-! ## C8: the operator line `exit` -/

/-- C8: on the literal operator line `exit` (as delivered by `getline`:
`exit` plus a trailing newline, length 5) the shell handler signals the
sibling request-handler process with `SIGUSR1` (asserting the Lifecycle
Token, so both execution contexts stop), writes nothing further on the
connection, and exits the process with the non-zero status 1 — whatever
the state of the write and read oracles. -/
theorem C8_exit_line (wres : Int) (r1 : ReadRes) (junk1 : List Nat)
    (r2 : ReadRes) (junk2 : List Nat) :
    shellIterate 5 [101, 120, 105, 116, 10] wres r1 junk1 r2 junk2 =
      { sent := [], killsSibling := true, exitCode := some 1, rendered := none } := by
  rfl

/-! ## C10: failed or exhausted operator input -/

/-- C10: when `getline` fails or hits end-of-input (non-positive return),
the shell handler neither terminates nor asserts the Lifecycle Token: the
iteration behaves exactly like an empty line (nothing sent, sibling not
signalled, no exit) and the loop re-prompts. -/
theorem C10_eof_reprompts (len : Int) (buf : List Nat) (wres : Int)
    (r1 : ReadRes) (junk1 : List Nat) (r2 : ReadRes) (junk2 : List Nat)
    (hlen : len ≤ 0) :
    shellIterate len buf wres r1 junk1 r2 junk2 =
      { sent := [], killsSibling := false, exitCode := none, rendered := none } ∧
    shellIterate len buf wres r1 junk1 r2 junk2 =
      shellIterate 1 [10] wres r1 junk1 r2 junk2 := by
  constructor
  · unfold shellIterate
    rw [if_pos (Or.inl hlen)]
  · unfold shellIterate
    rw [if_pos (Or.inl hlen), if_pos (Or.inr ⟨rfl, rfl⟩)]

/-- C10 witness: `getline` returning `-1` (end of the operator's input
stream) just re-prompts. -/
theorem C10_eof_reprompts_witness :
    shellIterate (-1) [] 0 ReadRes.err [] ReadRes.err [] =
      { sent := [], killsSibling := false, exitCode := none, rendered := none } ∧
    shellIterate (-1) [] 0 ReadRes.err [] ReadRes.err [] =
      shellIterate 1 [10] 0 ReadRes.err [] ReadRes.err [] :=
  C10_eof_reprompts (-1) [] 0 ReadRes.err [] ReadRes.err [] (by norm_num)

/-! ## C9: recognition of the `cd` built-in -/

/-- C9: the engine treats a command as the `cd` built-in exactly when its
first three bytes are `c`, `d`, space (reading the NUL terminator past the
end of a shorter command); in particular the bare word `cd` and a command
beginning `cdx` are not built-ins and are handed to `popen` (a subprocess
run through the shell). -/
theorem C9_cd_prefix (env : EngineEnv) (cwd input command : List Nat) :
    ((execute_on_current_node env cwd input command).popenArg = none ↔
      (command.getD 0 0 = 99 ∧ command.getD 1 0 = 100 ∧ command.getD 2 0 = 32)) ∧
    (execute_on_current_node env cwd input [99, 100]).popenArg = some [99, 100] ∧
    (execute_on_current_node env cwd input [99, 100, 120]).popenArg =
      some [99, 100, 120] := by
  refine ⟨?_, ?_, ?_⟩
  · by_cases hcond :
      command.getD 0 0 = 99 ∧ command.getD 1 0 = 100 ∧ command.getD 2 0 = 32
    · unfold execute_on_current_node
      rw [if_pos hcond]
      exact iff_of_true rfl hcond
    · unfold execute_on_current_node
      rw [if_neg hcond]
      refine iff_of_false ?_ hcond
      cases h : env.spawn (cstr command) <;> simp [h]
  · unfold execute_on_current_node
    rw [if_neg (by norm_num)]
    cases h : env.spawn (cstr [99, 100]) <;> simp [cstr, List.takeWhile]
  · unfold execute_on_current_node
    rw [if_neg (by norm_num)]
    cases h : env.spawn (cstr [99, 100, 120]) <;> simp [cstr, List.takeWhile]

/-! ## C5: `cd` to a nonexistent path -/

/-- C5: on the built-in `cd <path>` with a `<path>` on which `chdir`
fails, the working directory is unchanged, the returned result is a
freshly allocated empty string (not an error and not `NULL`), the engine
does not take the fatal path, and no subprocess is spawned. -/
theorem C5_cd_missing_dir (env : EngineEnv) (cwd input path : List Nat)
    (hp : (0 : Nat) ∉ path) (hfail : env.chdirOk path = false) :
    execute_on_current_node env cwd input ([99, 100, 32] ++ path) =
      { result := some [], newCwd := cwd, fatal := false, stdinSent := []
        popenArg := none } := by
  have hc : ([99, 100, 32] ++ path) = 99 :: 100 :: 32 :: path := rfl
  unfold execute_on_current_node
  rw [hc]
  rw [if_pos (by simp [List.getD])]
  have hdrop : (99 :: 100 :: 32 :: path).drop 3 = path := rfl
  rw [hdrop, cstr_eq_self hp, hfail]
  simp

/-- The engine environment for the C5 witness: every `chdir` fails and
`popen` always fails (never reached). -/
def envNoChdir : EngineEnv := ⟨fun _ => false, fun _ => none⟩

/-- C5 witness: `cd x` with a failing `chdir` leaves the working
directory `/` unchanged and returns the empty string. -/
theorem C5_cd_missing_dir_witness :
    execute_on_current_node envNoChdir [47] [] ([99, 100, 32] ++ [120]) =
      { result := some [], newCwd := [47], fatal := false, stdinSent := []
        popenArg := none } :=
  C5_cd_missing_dir envNoChdir [47] [] [120] (by decide) rfl

/-! ## fgets accumulation lemmas -/

theorem fgetsChunkLen_pos (s : List Nat) (hs : s ≠ []) : 1 ≤ fgetsChunkLen s := by
  unfold fgetsChunkLen
  cases hf : (s.take 199).findIdx? (fun b => b = 10) with
  | some i => simp
  | none =>
    have h1 : 1 ≤ s.length := by
      cases s with
      | nil => exact absurd rfl hs
      | cons a t => simp
    simp only []
    rw [Nat.le_min]
    exact ⟨by norm_num, h1⟩

theorem fgetsChunks_nil : fgetsChunks [] = [] := by
  rw [fgetsChunks]
  rw [dif_pos rfl]

theorem fgetsChunks_cons (s : List Nat) (hs : s ≠ []) :
    fgetsChunks s =
      s.take (fgetsChunkLen s) :: fgetsChunks (s.drop (fgetsChunkLen s)) := by
  rw [fgetsChunks]
  rw [dif_neg hs]

theorem joinChunks_acc (l : List (List Nat)) :
    ∀ acc : List Nat,
      l.foldl (fun a c => a ++ cstr c) acc = acc ++ joinChunks l := by
  induction l with
  | nil => intro acc; simp [joinChunks]
  | cons c t ih =>
    intro acc
    simp only [joinChunks, List.foldl_cons, List.nil_append]
    rw [ih (acc ++ cstr c), ih (cstr c)]
    simp [List.append_assoc]

theorem joinChunks_cons (c : List Nat) (l : List (List Nat)) :
    joinChunks (c :: l) = cstr c ++ joinChunks l := by
  simp only [joinChunks, List.foldl_cons, List.nil_append]
  exact joinChunks_acc l (cstr c)

/-- Concatenating the `fgets` chunks (through the C-string view `strcpy`
takes of each) recovers the whole stream, provided the stream holds no NUL
byte. -/
theorem joinChunks_fgetsChunks (s : List Nat) (h : (0 : Nat) ∉ s) :
    joinChunks (fgetsChunks s) = s := by
  by_cases hs : s = []
  · subst hs
    rw [fgetsChunks_nil]
    rfl
  · rw [fgetsChunks_cons s hs, joinChunks_cons]
    have hrec := joinChunks_fgetsChunks (s.drop (fgetsChunkLen s))
      (fun hc => h (List.drop_subset _ _ hc))
    rw [hrec, cstr_eq_self (fun hc => h (List.take_subset _ _ hc))]
    exact List.take_append_drop _ s
termination_by s.length
decreasing_by
  have hk := fgetsChunkLen_pos s hs
  have h1 : 1 ≤ s.length := by
    cases s with
    | nil => exact absurd rfl hs
    | cons a t => simp
  simp only [List.length_drop]
  omega

theorem accumOutput_cons (c : List Nat) (l : List (List Nat)) :
    accumOutput (c :: l) = some (joinChunks (c :: l)) := rfl

/-- The `fgets` loop of `execute_on_current_node` returns exactly the
subprocess's standard-output stream when that stream is nonempty and holds
no NUL byte. -/
theorem accumOutput_fgets (s : List Nat) (h0 : (0 : Nat) ∉ s) (hne : s ≠ []) :
    accumOutput (fgetsChunks s) = some s := by
  rw [fgetsChunks_cons s hne, accumOutput_cons, ← fgetsChunks_cons s hne,
    joinChunks_fgetsChunks s h0]

/-! ## C3: subprocess input/output fidelity -/

/-- Engine environment with an identity subprocess: `chdir` always
succeeds and every command behaves like `cat`, echoing its standard input
to its standard output. -/
def envCat : EngineEnv := ⟨fun _ => true, fun _ => some (fun s => s)⟩

/-- C3 counterexample: the engine does NOT write every input byte sequence
verbatim to the subprocess.  Line 120 writes `strlen(input)` bytes, so the
input `a NUL b` (`[97, 0, 98]`) is truncated at its NUL byte: only `[97]`
reaches the subprocess's standard input. -/
theorem C3_counterexample :
    (execute_on_current_node envCat [] [97, 0, 98] [99, 97, 116]).stdinSent = [97] ∧
    (execute_on_current_node envCat [] [97, 0, 98] [99, 97, 116]).stdinSent ≠
      [97, 0, 98] := by
  constructor
  · rfl
  · intro hc
    have : ([97] : List Nat) = [97, 0, 98] := by
      rw [← hc]
      rfl
    simp at this

/-- C3 amended: for every NUL-free input and every non-built-in command,
the engine writes the entire input verbatim into the subprocess's standard
input (and closes it before output is read — in the model the output
stream is a function of the completed input alone), and returns exactly
the bytes the subprocess wrote to standard output, including embedded
newlines, provided that output is nonempty and NUL-free.  (Inputs or
outputs holding a NUL byte are truncated by `strlen`-based copying, and an
empty output is returned as the `NULL` pointer — see the C6 result.) -/
theorem C3_amended (env : EngineEnv) (cwd input command : List Nat)
    (f : List Nat → List Nat)
    (hnb : ¬(command.getD 0 0 = 99 ∧ command.getD 1 0 = 100 ∧
      command.getD 2 0 = 32))
    (hin : (0 : Nat) ∉ input)
    (hsp : env.spawn (cstr command) = some f)
    (hout : (0 : Nat) ∉ f input) (hne : f input ≠ []) :
    (execute_on_current_node env cwd input command).stdinSent = input ∧
    (execute_on_current_node env cwd input command).result = some (f input) ∧
    (execute_on_current_node env cwd input command).fatal = false ∧
    (execute_on_current_node env cwd input command).newCwd = cwd := by
  unfold execute_on_current_node
  rw [if_neg hnb]
  rw [cstr_eq_self hin, hsp]
  refine ⟨rfl, ?_, rfl, rfl⟩
  exact accumOutput_fgets (f input) hout hne

/-- C3 amended witness: command `ls` with the NUL-free input `h\n` and an
echoing subprocess: the input goes through verbatim and the output comes
back byte-for-byte. -/
theorem C3_amended_witness :
    (execute_on_current_node envCat [] [104, 10] [108, 115]).stdinSent =
      [104, 10] ∧
    (execute_on_current_node envCat [] [104, 10] [108, 115]).result =
      some [104, 10] ∧
    (execute_on_current_node envCat [] [104, 10] [108, 115]).fatal = false ∧
    (execute_on_current_node envCat [] [104, 10] [108, 115]).newCwd = [] :=
  C3_amended envCat [] [104, 10] [108, 115] (fun s => s)
    (by norm_num) (by decide) rfl (by decide) (by decide)

/-! ## C6: command with no output -/

/-- Engine environment where every subprocess writes nothing to standard
output (e.g. the command `true`). -/
def envSilent : EngineEnv := ⟨fun _ => true, fun _ => some (fun _ => [])⟩

/-- C6: contrary to the claim, a non-built-in command whose subprocess
writes nothing does NOT yield an empty buffer: the `fgets` loop never
runs, `output` stays the `NULL` pointer (`none`), and the request handler
then evaluates `strlen(output)` and `strcat(msg, output)` on `NULL`
(lines 355-358) — undefined behaviour (`ub = true`), not an `o`-tagged
frame of length 0. -/
theorem C6_no_output_returns_null :
    (execute_on_current_node envSilent [] [] [116, 114, 117, 101]).result
      = none ∧
    requestIterate (ReadRes.ok [99, 48, 48, 48, 48, 48]) []
        (ReadRes.ok [105, 48, 48, 48, 48, 48]) []
        (ReadRes.ok []) [] (ReadRes.ok []) [] none 0 =
      { sent := [], killsSibling := false, exitCode := none
        engineCalled := some ([], []), ub := true } := by
  constructor
  · unfold execute_on_current_node
    rw [if_neg (by norm_num)]
    simp only [envSilent]
    rw [fgetsChunks_nil]
    rfl
  · rfl

/-! ## C2: a full Request Channel exchange -/

/-- C2: on a well-formed request — command header (tag `c`), then input
header (tag `i`), then the input body, then the command body, each body
read with exactly its header-declared length — the request handler invokes
the execution engine with exactly that input and that command text, and
replies with a single output frame whose header has tag `o` and declares
exactly the result's byte length, followed by the result bytes. -/
theorem C2_request_exchange (inpB cmdB out : List Nat)
    (hc : cmdB.length ≤ 99999) (hi : inpB.length ≤ 99999)
    (ho : out.length ≤ 99999) (h0 : (0 : Nat) ∉ out) :
    ∃ chdr ihdr ohdr,
      get_header_str 99 cmdB.length = some chdr ∧
      get_header_str 105 inpB.length = some ihdr ∧
      get_header_str 111 out.length = some ohdr ∧
      ohdr.headD 0 = 111 ∧ atoi (ohdr.drop 1) = (out.length : Int) ∧
      requestIterate (ReadRes.ok chdr) [] (ReadRes.ok ihdr) []
          (ReadRes.ok inpB) [] (ReadRes.ok cmdB) [] (some out)
          ((6 + out.length : Nat) : Int) =
        { sent := ohdr ++ out, killsSibling := false, exitCode := none
          engineCalled := some (inpB, cmdB), ub := false } := by
  have hc6 := header_length 99 hc
  have hi6 := header_length 105 hi
  have ho6 := header_length 111 ho
  refine ⟨_, _, _, get_header_str_eq 99 hc, get_header_str_eq 105 hi,
    get_header_str_eq 111 ho, rfl, atoi_padded _ _, ?_⟩
  unfold requestIterate
  simp only [readBuf, List.append_nil]
  rw [List.take_of_length_le (le_of_eq hc6), List.take_of_length_le (le_of_eq hi6)]
  simp only [List.headD_cons, List.drop_one, List.tail_cons]
  simp only [if_true]
  rw [atoi_padded, atoi_padded, Int.toNat_natCast, Int.toNat_natCast,
    List.take_length, List.take_length]
  rw [cstr_eq_self h0, get_header_str_eq 111 ho]
  simp only []
  rw [if_neg (by exact not_lt.mpr (Int.natCast_nonneg _))]
  rw [if_neg (by
    rw [List.length_append, ho6]
    exact lt_irrefl _)]

/-- C2 witness: the exchange from the spec — headers `c000005` and
`i000003`, bodies `xyz` then `abcde` — invokes the engine with command
`abcde` and input `xyz`, and the reply is an `o`-tagged frame declaring
the result's length. -/
theorem C2_request_exchange_witness :
    ∃ chdr ihdr ohdr,
      get_header_str 99 ([97, 98, 99, 100, 101] : List Nat).length = some chdr ∧
      get_header_str 105 ([120, 121, 122] : List Nat).length = some ihdr ∧
      get_header_str 111 ([121, 111] : List Nat).length = some ohdr ∧
      ohdr.headD 0 = 111 ∧
      atoi (ohdr.drop 1) = (([121, 111] : List Nat).length : Int) ∧
      requestIterate (ReadRes.ok chdr) [] (ReadRes.ok ihdr) []
          (ReadRes.ok [120, 121, 122]) [] (ReadRes.ok [97, 98, 99, 100, 101]) []
          (some [121, 111]) ((6 + ([121, 111] : List Nat).length : Nat) : Int) =
        { sent := ohdr ++ [121, 111], killsSibling := false, exitCode := none
          engineCalled := some ([120, 121, 122], [97, 98, 99, 100, 101])
          ub := false } :=
  C2_request_exchange [120, 121, 122] [97, 98, 99, 100, 101] [121, 111]
    (by norm_num) (by norm_num) (by norm_num) (by decide)

/-! ## C4: oversized payloads are rejected before transmission -/

theorem get_header_str_none {n : Nat} (t : Nat) (h : 100000 ≤ n) :
    get_header_str t n = none := by
  unfold get_header_str
  rw [if_pos (numLength_gt_five h)]

theorem cstr_replicate (k : Nat) {b : Nat} (hb : b ≠ 0) :
    cstr (List.replicate k b) = List.replicate k b :=
  cstr_eq_self (fun hc => hb (List.eq_of_mem_replicate hc).symm)

/-- C4: a payload of 100000 or more bytes is rejected inside
`get_header_str`, before any byte reaches the wire.  The encoder yields no
frame; a shell iteration whose operator line is that long signals the
sibling and exits with nothing sent; a request iteration whose engine
result is that long writes nothing back, signals the sibling, and exits —
all pre-transmission, so no partial frame is ever written. -/
theorem C4_oversize_rejected (t : Nat) (payload : List Nat)
    (hp : 100000 ≤ payload.length)
    (len : Int) (buf : List Nat) (hlen : 100001 ≤ len)
    (hne : cstr (buf.take (len.toNat - 1)) ≠ [101, 120, 105, 116])
    (out : List Nat) (hout : 100000 ≤ (cstr out).length) :
    encodeFrame t payload = none ∧
    (∀ wres r1 junk1 r2 junk2,
      shellIterate len buf wres r1 junk1 r2 junk2 =
        { sent := [], killsSibling := true, exitCode := some 1
          rendered := none }) ∧
    (∀ r1 j1 r2 j2 r3 j3 r4 j4 w,
      (requestIterate r1 j1 r2 j2 r3 j3 r4 j4 (some out) w).sent = [] ∧
      (requestIterate r1 j1 r2 j2 r3 j3 r4 j4 (some out) w).killsSibling = true ∧
      (requestIterate r1 j1 r2 j2 r3 j3 r4 j4 (some out) w).exitCode = some 1) := by
  refine ⟨?_, ?_, ?_⟩
  · unfold encodeFrame
    rw [get_header_str_none t hp]
    rfl
  · intro wres r1 junk1 r2 junk2
    unfold shellIterate
    rw [if_neg (by
      rintro (h1 | ⟨h1, h2⟩) <;> omega)]
    simp only []
    rw [if_neg hne]
    rw [get_header_str_none 99 (by omega)]
  · intro r1 j1 r2 j2 r3 j3 r4 j4 w
    cases r1 with
    | err => exact ⟨rfl, rfl, rfl⟩
    | ok b1 =>
      cases r2 with
      | err => exact ⟨rfl, rfl, rfl⟩
      | ok b2 =>
        unfold requestIterate
        simp only [readBuf]
        by_cases h105 : ((b2 ++ j2).take 6).headD 0 = 105
        · rw [if_pos h105]
          by_cases h99 : ((b1 ++ j1).take 6).headD 0 = 99
          · rw [if_pos h99]
            rw [get_header_str_none 111 hout]
            exact ⟨rfl, rfl, rfl⟩
          · rw [if_neg h99]
            exact ⟨rfl, rfl, rfl⟩
        · rw [if_neg h105]
          exact ⟨rfl, rfl, rfl⟩

/-- C4 witness: a 100000-byte payload is not encoded; a 100000-byte
operator line aborts before writing; a 100000-byte engine result aborts
before replying. -/
theorem C4_oversize_rejected_witness :
    encodeFrame 99 (List.replicate 100000 48) = none ∧
    (∀ wres r1 junk1 r2 junk2,
      shellIterate 100001 (List.replicate 100001 97) wres r1 junk1 r2 junk2 =
        { sent := [], killsSibling := true, exitCode := some 1
          rendered := none }) ∧
    (∀ r1 j1 r2 j2 r3 j3 r4 j4 w,
      (requestIterate r1 j1 r2 j2 r3 j3 r4 j4
        (some (List.replicate 100000 97)) w).sent = [] ∧
      (requestIterate r1 j1 r2 j2 r3 j3 r4 j4
        (some (List.replicate 100000 97)) w).killsSibling = true ∧
      (requestIterate r1 j1 r2 j2 r3 j3 r4 j4
        (some (List.replicate 100000 97)) w).exitCode = some 1) :=
  C4_oversize_rejected 99 (List.replicate 100000 48)
    (by rw [List.length_replicate])
    100001 (List.replicate 100001 97) (by norm_num)
    (by
      rw [show ((100001 : Int).toNat - 1) = 100000 from rfl]
      rw [List.take_replicate, cstr_replicate _ (by norm_num)]
      intro h
      have hl := congrArg List.length h
      rw [List.length_replicate] at hl
      simp only [List.length_cons, List.length_nil] at hl
      omega)
    (List.replicate 100000 97)
    (by rw [cstr_replicate _ (by norm_num), List.length_replicate])

/-! ## C7: short reads and failed reads -/

/-- C7 counterexample: a short read is NOT treated as a fatal transport
error.  After sending `ls` (frame `c00002ls`, 8 bytes, written in full),
the reply-header `read` delivers only 1 byte (`o`) of the 6 promised; the
handler pads the header buffer with the uninitialized memory
`[48, 48, 48, 48, 48]`, accepts the tag, parses length 0, and continues
the loop — it neither signals the sibling nor exits. -/
theorem C7_counterexample :
    (shellIterate 3 [108, 115, 10] 8 (ReadRes.ok [111]) [48, 48, 48, 48, 48]
      (ReadRes.ok []) []).killsSibling = false ∧
    (shellIterate 3 [108, 115, 10] 8 (ReadRes.ok [111]) [48, 48, 48, 48, 48]
      (ReadRes.ok []) []).exitCode = none ∧
    (shellIterate 3 [108, 115, 10] 8 (ReadRes.ok [111]) [48, 48, 48, 48, 48]
      (ReadRes.ok []) []).rendered = some [] := by
  refine ⟨?_, ?_, ?_⟩ <;>
    simp [shellIterate, cstr, get_header_str, numLength, digitCount, decDigits,
      atoi, atoiDigits, isSpaceB, isDigitB, readBuf]

/-- C7 amended: only an outright `read` FAILURE (negative return) on a
header read is treated as fatal — the shell handler on its reply header,
and the request handler on each of its two headers, then signal the
sibling and exit 1 with no retry.  Short reads are not detected (the
handler completes the header from leftover buffer memory and proceeds —
see the counterexample), and body-read results are never checked at
all. -/
theorem C7_amended (len : Int) (buf : List Nat) (hdr : List Nat)
    (hline : ¬(len ≤ 0 ∨ (len = 1 ∧ buf.headD 0 = 10)))
    (hexit : cstr (buf.take (len.toNat - 1)) ≠ [101, 120, 105, 116])
    (hhdr : get_header_str 99 (len.toNat - 1) = some hdr)
    (junk1 : List Nat) (r2 : ReadRes) (junk2 : List Nat) :
    (shellIterate len buf
        (((hdr ++ cstr (buf.take (len.toNat - 1))).length : Nat) : Int)
        ReadRes.err junk1 r2 junk2 =
      { sent := hdr ++ cstr (buf.take (len.toNat - 1)), killsSibling := true
        exitCode := some 1, rendered := none }) ∧
    (∀ j1 rr2 j2 r3 j3 r4 j4 er w,
      requestIterate ReadRes.err j1 rr2 j2 r3 j3 r4 j4 er w =
        { sent := [], killsSibling := true, exitCode := some 1
          engineCalled := none, ub := false }) ∧
    (∀ b1 j1 j2 r3 j3 r4 j4 er w,
      requestIterate (ReadRes.ok b1) j1 ReadRes.err j2 r3 j3 r4 j4 er w =
        { sent := [], killsSibling := true, exitCode := some 1
          engineCalled := none, ub := false }) := by
  refine ⟨?_, fun _ _ _ _ _ _ _ _ _ => rfl, fun _ _ _ _ _ _ _ _ _ => rfl⟩
  unfold shellIterate
  rw [if_neg hline]
  simp only []
  rw [if_neg hexit, hhdr]
  simp only []
  rw [if_neg (by exact not_lt.mpr (Int.natCast_nonneg _))]
  rw [if_neg (by exact lt_irrefl _)]

/-- C7 amended witness: after sending `ls`, a failed reply-header read
(`read` returning a negative value) signals the sibling and exits 1; a
failed first or second header read on the request channel does the same. -/
theorem C7_amended_witness :
    (shellIterate 3 [108, 115, 10]
        (((([99, 48, 48, 48, 48, 50] : List Nat) ++
          cstr (([108, 115, 10] : List Nat).take ((3 : Int).toNat - 1))).length : Nat) : Int)
        ReadRes.err [] (ReadRes.ok []) [] =
      { sent := [99, 48, 48, 48, 48, 50] ++
          cstr (([108, 115, 10] : List Nat).take ((3 : Int).toNat - 1))
        killsSibling := true, exitCode := some 1, rendered := none }) ∧
    (∀ j1 rr2 j2 r3 j3 r4 j4 er w,
      requestIterate ReadRes.err j1 rr2 j2 r3 j3 r4 j4 er w =
        { sent := [], killsSibling := true, exitCode := some 1
          engineCalled := none, ub := false }) ∧
    (∀ b1 j1 j2 r3 j3 r4 j4 er w,
      requestIterate (ReadRes.ok b1) j1 ReadRes.err j2 r3 j3 r4 j4 er w =
        { sent := [], killsSibling := true, exitCode := some 1
          engineCalled := none, ub := false }) :=
  C7_amended 3 [108, 115, 10] [99, 48, 48, 48, 48, 50]
    (by norm_num)
    (by decide)
    (by simp [get_header_str, numLength, digitCount, decDigits])
    [] (ReadRes.ok []) []

end ClusterShell
